import Mathlib

/-!
Verification of the ACTS trading backend against its specification.

The Python sources are shallowly embedded:
* Python floats are modelled as exact rationals (`ℚ`);
* Python unbounded ints are `Int` / `Nat`;
* a value computed inside a `try` block that can raise is modelled with
  `Option`/an explicit exception constructor, and the surrounding
  `except` branch is translated explicitly;
* Redis lists, database rows and network replies are explicit Lean data.

The file first gives all definitions (the embedding), then the theorems.
-/

namespace ACTS

/-! Section: shared/types.py -/

/-- The `TradeAction` enum from `shared/types.py`. -/
inductive TradeAction
  | buy
  | sell
  | hold
  deriving DecidableEq, Repr

/-- The `CandleData` pydantic model from `shared/types.py`: numeric OHLCV fields
are kept as strings in the source, the timestamp is a Python int (ms). -/
structure CandleData where
  timestamp : Int
  openPrice : String
  high : String
  low : String
  close : String
  volume : String
  deriving DecidableEq, Repr

/-- The `GPTAnalysis` pydantic model from `shared/types.py` (the free-form
`indicators` dict is modelled as an association list). -/
structure GPTAnalysis where
  action : TradeAction
  confidence : ℚ
  leverage : Int
  reason : String
  stop_loss : Option ℚ := none
  take_profit : Option ℚ := none
  indicators : List (String × String) := []
  deriving DecidableEq, Repr

/-! Section: shared/redis_client.py — the bounded candle store

`save_candle_data` does `LPUSH` then `LTRIM key 0 4999`, so one
`(symbol, interval)` series is a newest-first list capped at 5000.
`get_candle_data` does `LRANGE key 0 (count-1)`, i.e. the first `count`
elements, and `get_candle_count` is `LLEN`. -/

/-- Capacity of one candle series (`LTRIM key 0 4999` keeps 5000 entries). -/
def candleCapacity : Nat := 5000

/-- Embeds `save_candle_data` (redis_client.py:59-76) on one series:
push the new candle at the head, then trim to the newest 5000. -/
def saveCandleData (series : List CandleData) (candle : CandleData) : List CandleData :=
  (candle :: series).take candleCapacity

/-- Embeds `get_candle_data` (redis_client.py:78-102) on one series:
return the newest `count` candles, newest first. -/
def getCandleData (series : List CandleData) (count : Nat) : List CandleData :=
  series.take count

/-- Embeds `get_candle_count` (redis_client.py:104-113): current series length. -/
def candleCount (series : List CandleData) : Nat :=
  series.length

/-- A finite sequence of appends applied to an initially empty series. -/
def applyAppends (candles : List CandleData) : List CandleData :=
  candles.foldl saveCandleData []

/-! Section: gpt_service.py — decision parsing and validation -/

/-- Substring test, Python's `needle in haystack` on the character level. -/
def charContains (haystack needle : List Char) : Bool :=
  match haystack with
  | [] => needle.isEmpty
  | _ :: t => needle.isPrefixOf haystack || charContains t needle

/-- Python's `needle in haystack` for strings. -/
def strContains (haystack needle : String) : Bool :=
  charContains haystack.data needle.data

/-- Python's `str.lower()`, character by character. -/
def pyLower (s : String) : String :=
  String.mk (s.data.map Char.toLower)

/-- Python's slice `s[:n]`. -/
def pyTake (s : String) (n : Nat) : String :=
  String.mk (s.data.take n)

/-- The relevant fields of a decoded JSON decision object, as read with
`response_data.get(...)` in `_parse_gpt_response`. `none` = key absent. -/
structure RawDecision where
  action : Option String := none
  confidence : Option ℚ := none
  leverage : Option ℚ := none
  reason : Option String := none
  stop_loss : Option ℚ := none
  take_profit : Option ℚ := none
  indicators : List (String × String) := []
  deriving Repr

/-- Outcome of `json.loads` on the decision payload plus the field
coercions in `_parse_gpt_response`:
* `invalidJson text` — `json.loads` raises `JSONDecodeError`;
* `fieldError msg` — the payload decodes but a later coercion
  (e.g. `float()` on a non-numeric value) raises some other exception;
* `ok fields` — the payload decodes to an object and all used
  coercions succeed. -/
inductive GptPayload
  | invalidJson (text : String)
  | fieldError (msg : String)
  | ok (fields : RawDecision)

/-- Python `int()` on a float/rational: truncation toward zero. -/
def pyInt (q : ℚ) : Int :=
  if 0 ≤ q then ⌊q⌋ else ⌈q⌉

/-- Embeds `GPTAnalysisService._extract_from_text` (gpt_service.py:229-264):
keyword fallback used when the payload is not valid JSON. -/
def extractFromText (text : String) : GPTAnalysis :=
  let textLower := pyLower text
  let action :=
    if strContains textLower "buy" || strContains textLower "매수" then TradeAction.buy
    else if strContains textLower "sell" || strContains textLower "매도" then TradeAction.sell
    else TradeAction.hold
  { action := action
    confidence := 1 / 2
    leverage := 1
    reason := "텍스트 분석 결과: " ++ pyTake text 100 ++ "..." }

/-- Embeds `GPTAnalysisService._parse_gpt_response` (gpt_service.py:167-227).
Clamps `confidence` to [0,1] and `leverage` to [1,20]; unknown actions
default to `hold`; invalid JSON falls back to `_extract_from_text`;
any other exception yields the `hold` default. The `if stop_loss:` /
`if take_profit:` truthiness tests skip the clamp when the value is 0. -/
def parseGptResponse : GptPayload → GPTAnalysis
  | GptPayload.invalidJson text => extractFromText text
  | GptPayload.fieldError msg =>
      { action := TradeAction.hold
        confidence := 0
        leverage := 1
        reason := "응답 파싱 실패: " ++ msg }
  | GptPayload.ok f =>
      let actionStr := pyLower (f.action.getD "hold")
      let action :=
        if actionStr = "buy" then TradeAction.buy
        else if actionStr = "sell" then TradeAction.sell
        else if actionStr = "hold" then TradeAction.hold
        else TradeAction.hold
      let confidence := max 0 (min 1 (f.confidence.getD 0))
      let leverage := max 1 (min 20 (pyInt (f.leverage.getD 1)))
      let reason := f.reason.getD "GPT 분석 결과"
      let stopLoss :=
        match f.stop_loss with
        | none => none
        | some v => some (if v = 0 then v else max (1 / 100) (min (1 / 10) v))
      let takeProfit :=
        match f.take_profit with
        | none => none
        | some v => some (if v = 0 then v else max (1 / 100) (min (2 / 10) v))
      { action := action
        confidence := confidence
        leverage := leverage
        reason := reason
        stop_loss := stopLoss
        take_profit := takeProfit
        indicators := f.indicators }

/-- Outcome of the OpenAI chat-completion call in `analyze_candles`:
either a response payload or an exception from the API call. -/
inductive AnalyzeOutcome
  | response (payload : GptPayload)
  | apiError (msg : String)

/-- Embeds `GPTAnalysisService.analyze_candles` (gpt_service.py:24-76): parse the
model response; any exception degrades to a `hold` decision. -/
def analyzeCandles : AnalyzeOutcome → GPTAnalysis
  | AnalyzeOutcome.response payload => parseGptResponse payload
  | AnalyzeOutcome.apiError msg =>
      { action := TradeAction.hold
        confidence := 0
        leverage := 1
        reason := "GPT 분석 실패: " ++ msg }

/-- The user-config dict handed to the GPT service by the scheduler
(`risk_level`, `max_leverage`, `custom_prompt`). -/
structure UserConfig where
  risk_level : String
  max_leverage : Int
  custom_prompt : Option String := none

/-- The risk-dependent confidence threshold of `validate_analysis`
(gpt_service.py:276-280): `{'low': 0.8, 'medium': 0.7, 'high': 0.6}`
with `.get(risk_level, 0.7)`. -/
def confidenceThreshold (riskLevel : String) : ℚ :=
  if riskLevel = "low" then 8 / 10
  else if riskLevel = "medium" then 7 / 10
  else if riskLevel = "high" then 6 / 10
  else 7 / 10

/-- The f-string appended to the reason when confidence is below the
threshold (gpt_service.py:291). The Python `%.2f`-style float rendering
is abstracted to the exact rational rendered with `toString`. -/
def thresholdRemark (confidence threshold : ℚ) : String :=
  " (신뢰도 " ++ toString confidence ++ " < 임계값 " ++ toString threshold ++ ")"

/-- Embeds `GPTAnalysisService.validate_analysis` (gpt_service.py:266-297):
cap leverage at the user's `max_leverage`, then force `hold` and annotate
the reason when confidence is below the risk-dependent threshold. -/
def validateAnalysis (analysis : GPTAnalysis) (config : UserConfig) : GPTAnalysis :=
  let a1 :=
    if config.max_leverage < analysis.leverage then
      { analysis with leverage := config.max_leverage }
    else analysis
  let threshold := confidenceThreshold config.risk_level
  if a1.confidence < threshold then
    { a1 with
        action := TradeAction.hold
        reason := a1.reason ++ thresholdRemark a1.confidence threshold }
  else a1

/-! Section: trading_service.py — the exchange client -/

/-- Python `round` on a rational: nearest integer, ties to even
(banker's rounding), as used in `_calculate_order_quantity`. -/
def pyRound (q : ℚ) : Int :=
  let f := ⌊q⌋
  if q - f = 1 / 2 then (if f % 2 = 0 then f else f + 1)
  else if q - f < 1 / 2 then f
  else f + 1

/-- Embeds `BybitTradingService._calculate_order_quantity` (trading_service.py:217-250).
Uses 80% of the available balance, ignores leverage (spot trading),
divides by the current price and rounds to the minimum increment 0.000001.
A price of 0 makes the float division raise `ZeroDivisionError`, which the
`except` branch turns into a returned quantity of 0. -/
def calculateOrderQuantity (availableBalance : ℚ) (currentPrice : ℚ)
    (_leverage : Int) : ℚ :=
  if currentPrice = 0 then
    0
  else
    let usableBalance := availableBalance * (8 / 10)
    let orderValue := usableBalance
    let orderQty := orderValue / currentPrice
    let minQty : ℚ := 1 / 1000000
    (pyRound (orderQty / minQty) : ℚ) * minQty

/-- Result dict returned by the order functions of `BybitTradingService`. -/
structure OrderResult where
  success : Bool
  order_id : Option String := none
  order_link_id : Option String := none
  status : Option String := none
  side : Option String := none
  qty : Option ℚ := none
  price : Option ℚ := none
  simulated : Bool := false
  error : Option String := none
  deriving DecidableEq, Repr

/-- Result of evaluating a Python expression that may raise. -/
inductive PyResult (α : Type)
  | ok (value : α)
  | exn (msg : String)

/-- The `order_data` dict of `_place_order` (all fields it carries). -/
structure OrderData where
  category : String
  symbol : String
  side : String
  orderType : String
  qty : ℚ
  timeInForce : String
  orderLinkId : String

/-- Embeds the `order_data` dict literal in `_place_order`
(trading_service.py:270-278). Its `orderLinkId` f-string reads the name
`user_id`, which is not bound anywhere in the scope of `_place_order`
(its parameters are api_key, api_secret, symbol, action, qty, price,
analysis), so evaluating the literal raises `NameError` before any later
statement of the method runs. -/
def buildOrderData (_symbol _side : String) (_qty : ℚ) : PyResult OrderData :=
  PyResult.exn "NameError: name user_id is not defined"

/-- The exchange's reply to a real (production) order request. -/
inductive ExchangeReply
  | okOrder (orderId orderLinkId : String)
  | errOrder (retMsg : String)

/-- Embeds `BybitTradingService._place_order` (trading_service.py:252-350).
`nowS` is `int(time.time())`. The method first builds `order_data`
(which raises, see `buildOrderData`), then — were that reachable — would
return a simulated fill when `testnet` or the `development` environment
is set, and otherwise submit the signed request. Every exception is
caught and turned into a `success = false` dict. -/
def placeOrder (testnet devEnv : Bool) (nowS : Int) (exch : ExchangeReply)
    (symbol : String) (action : TradeAction) (qty price : ℚ) : OrderResult :=
  let side := if action = TradeAction.buy then "Buy" else "Sell"
  match buildOrderData symbol side qty with
  | PyResult.exn msg => { success := false, error := some msg }
  | PyResult.ok _ =>
      if testnet || devEnv then
        { success := true
          order_id := some ("test_" ++ toString nowS)
          status := some "Filled"
          side := some side
          qty := some qty
          price := some price
          simulated := true }
      else
        match exch with
        | ExchangeReply.okOrder oid olid =>
            { success := true
              order_id := some oid
              order_link_id := some olid
              status := some "Submitted"
              side := some side
              qty := some qty
              price := some price }
        | ExchangeReply.errOrder msg =>
            { success := false, error := some ("주문 실행 실패: " ++ msg) }

/-- One row of the `trade_logs` table (the trade ledger). -/
structure TradeLogRow where
  user_id : Int
  action : TradeAction
  leverage : ℚ
  order_id : Option String
  status : String
  error_message : Option String
  deriving DecidableEq, Repr

/-- Embeds `BybitTradingService._save_trade_log` (trading_service.py:405-445):
the row inserted into `trade_logs` for one order attempt. -/
def saveTradeLog (userId : Int) (analysis : GPTAnalysis)
    (orderResult : OrderResult) : TradeLogRow :=
  { user_id := userId
    action := analysis.action
    leverage := (analysis.leverage : ℚ)
    order_id := orderResult.order_id
    status := if orderResult.success then "success" else "failed"
    error_message := if orderResult.success then none else orderResult.error }

/-- The dict returned by `_get_account_balance` (trading_service.py:123-185);
the method catches all exceptions internally, returning
`sufficient = false` with balance 0 on failure. -/
structure BalanceInfo where
  sufficient : Bool
  available_balance : ℚ

/-- External inputs of one `execute_trade` call: the balance reply, the
ticker price (`none` = lookup failed), the service mode flags, the clock
and the exchange's order reply. `raiseMsg` injects an exception escaping
the inner calls of the `try` body (none in the normal flow — every inner
helper catches its own errors). -/
structure TradeEnv where
  raiseMsg : Option String := none
  balance : BalanceInfo
  price : Option ℚ
  testnet : Bool := false
  devEnv : Bool := false
  nowS : Int := 0
  exch : ExchangeReply := ExchangeReply.errOrder ""

/-- Embeds `BybitTradingService.execute_trade` (trading_service.py:28-121).
Returns the order-result dict together with the list of `trade_logs`
rows appended during the call. Insufficient balance, a failed price
lookup and a zero quantity return early, before `_save_trade_log`;
the order path and the exception path each append exactly one row. -/
def executeTrade (env : TradeEnv) (userId : Int) (analysis : GPTAnalysis)
    (symbol : String) : OrderResult × List TradeLogRow :=
  match env.raiseMsg with
  | some msg =>
      let res : OrderResult := { success := false, error := some msg }
      (res, [saveTradeLog userId analysis res])
  | none =>
      if !env.balance.sufficient then
        ({ success := false, error := some "잔고 부족" }, [])
      else
        match env.price with
        | none => ({ success := false, error := some "현재 가격 조회 실패" }, [])
        | some currentPrice =>
            let orderQty :=
              calculateOrderQuantity env.balance.available_balance currentPrice
                analysis.leverage
            if orderQty ≤ 0 then
              ({ success := false, error := some "주문 수량이 최소 단위 미만" }, [])
            else
              let res := placeOrder env.testnet env.devEnv env.nowS env.exch
                symbol analysis.action orderQty currentPrice
              (res, [saveTradeLog userId analysis res])

/-! Section: scheduler_service.py — the trading scheduler -/

/-- One row of the `users` table as returned by the query in
`_get_active_users` (only rows with `auto_trade_enabled` and non-NULL
key columns are returned, so both key columns are present). -/
structure DbUserRow where
  id : Int
  email : String
  bybit_api_key : String
  bybit_api_secret : String
  risk_level : String
  max_leverage : Int
  custom_prompt : Option String := none
  preferred_symbol : Option String := none
  preferred_interval : Option String := none

/-- The in-memory active-user dict built by `_get_active_users`. -/
structure ActiveUser where
  id : Int
  email : String
  api_key : String
  api_secret : String
  risk_level : String
  max_leverage : Int
  custom_prompt : Option String := none
  preferred_symbol : String
  preferred_interval : String

/-- Python `value or default` on an optional string (both `None` and the
empty string fall back to the default). -/
def strOrDefault (v : Option String) (dflt : String) : String :=
  match v with
  | none => dflt
  | some s => if s = "" then dflt else s

/-- Embeds `AutoTradingScheduler._get_active_users` (scheduler_service.py:167-214),
abstracting `shared.utils.decrypt` as `dec` (`none` = the Fernet decrypt
raises `ValueError`). A row whose key or secret fails to decrypt is
skipped with `continue` and does not reach the active-user list. -/
def buildActiveUser (dec : String → Option String) (r : DbUserRow) :
    Option ActiveUser :=
  match dec r.bybit_api_key, dec r.bybit_api_secret with
  | some key, some secret =>
      some
        { id := r.id
          email := r.email
          api_key := key
          api_secret := secret
          risk_level := r.risk_level
          max_leverage := r.max_leverage
          custom_prompt := r.custom_prompt
          preferred_symbol := strOrDefault r.preferred_symbol "BTCUSDT"
          preferred_interval := strOrDefault r.preferred_interval "1" }
  | _, _ => none

/-- The loop of `_get_active_users` over the returned rows. -/
def getActiveUsers (dec : String → Option String)
    (rows : List DbUserRow) : List ActiveUser :=
  rows.filterMap (buildActiveUser dec)

/-- The per-user external inputs of one scheduler tick:
* `loopRaise` — an exception thrown inside the per-user loop body before
  `_process_user_trading` returns (e.g. a missing dict key), caught by the
  loop's `except` and counted as a failed trade;
* `candles` — what `_get_latest_candles` returned (it catches internally
  and returns `[]` on any error);
* `procRaise` — an exception inside `_process_user_trading`, caught by its
  own `except`, which returns a failure dict without touching the ledger;
* `analyzeOutcome` — the GPT call outcome;
* `tradeEnv` — the exchange-facing inputs of `execute_trade`. -/
structure UserTickEnv where
  user : ActiveUser
  loopRaise : Option String := none
  candles : List CandleData := []
  procRaise : Option String := none
  analyzeOutcome : AnalyzeOutcome
  tradeEnv : TradeEnv

/-- The `user_config` dict built in `_process_user_trading`
(scheduler_service.py:232-236). -/
def configOf (u : ActiveUser) : UserConfig :=
  { risk_level := u.risk_level
    max_leverage := u.max_leverage
    custom_prompt := u.custom_prompt }

/-- Embeds `AutoTradingScheduler._process_user_trading` (scheduler_service.py:216-295).
Returns whether the result dict has `success = True`, together with the
`trade_logs` rows appended. A `hold` decision returns success **without
calling `execute_trade`**, hence without any ledger row; the method's own
`except` also returns a failure dict without a ledger row. -/
def processUserTrading (env : UserTickEnv) : Bool × List TradeLogRow :=
  match env.procRaise with
  | some _ => (false, [])
  | none =>
      let analysis := analyzeCandles env.analyzeOutcome
      let validated := validateAnalysis analysis (configOf env.user)
      if validated.action = TradeAction.hold then
        (true, [])
      else
        let (tradeResult, rows) :=
          executeTrade env.tradeEnv env.user.id validated env.user.preferred_symbol
        (tradeResult.success, rows)

/-- The body of the per-user `for` loop in `execute_trading_cycle`
(scheduler_service.py:77-104): an empty candle window counts as a failed
trade and skips the user; an exception anywhere in the body is caught by
the loop's `except` and counts as a failed trade. Returns
(counted as successful?, appended ledger rows). -/
def userTickOutcome (env : UserTickEnv) : Bool × List TradeLogRow :=
  match env.loopRaise with
  | some _ => (false, [])
  | none =>
      if env.candles.isEmpty then (false, [])
      else processUserTrading env

/-- The per-tick counters published to the status surface by
`_record_execution_result` (scheduler_service.py:297-315). -/
structure PublishedStatus where
  users_processed : Nat
  successful_trades : Nat
  failed_trades : Nat
  last_run_recorded : Bool
  deriving DecidableEq, Repr

/-- Result of one `execute_trading_cycle` tick. -/
structure CycleResult where
  successful_trades : Nat
  failed_trades : Nat
  entries : List TradeLogRow
  published : Option PublishedStatus

/-- Folding step for the per-user loop of `execute_trading_cycle`. -/
def cycleStep (acc : Nat × Nat × List TradeLogRow) (env : UserTickEnv) :
    Nat × Nat × List TradeLogRow :=
  let (ok, rows) := userTickOutcome env
  if ok then (acc.1 + 1, acc.2.1, acc.2.2 ++ rows)
  else (acc.1, acc.2.1 + 1, acc.2.2 ++ rows)

/-- Embeds `AutoTradingScheduler.execute_trading_cycle` (scheduler_service.py:55-136)
over an already-loaded active-user list. With no active users the method
returns early without publishing anything; otherwise every user is
processed in order and the aggregate counters and last-run timestamp are
published afterwards. -/
def executeTradingCycle (users : List UserTickEnv) : CycleResult :=
  if users.isEmpty then
    { successful_trades := 0, failed_trades := 0, entries := [], published := none }
  else
    let (s, f, es) := users.foldl cycleStep (0, 0, [])
    { successful_trades := s
      failed_trades := f
      entries := es
      published := some
        { users_processed := users.length
          successful_trades := s
          failed_trades := f
          last_run_recorded := true } }

/-- A whole tick starting from the database rows: load and decrypt the
active users, attach each user's external inputs, run the cycle.
`envOf` supplies the per-user external world (candles, GPT outcome,
exchange replies). -/
def fullTick (dec : String → Option String) (rows : List DbUserRow)
    (envOf : ActiveUser → UserTickEnv) : CycleResult :=
  executeTradingCycle ((getActiveUsers dec rows).map envOf)

/-- Whether one user's tick appends a ledger row: the validated decision
must not be `hold` and `execute_trade` must either reach the order
placement (sufficient balance, known price, positive quantity) or raise. -/
def ledgerAppended (env : UserTickEnv) : Bool :=
  env.loopRaise.isNone && !env.candles.isEmpty && env.procRaise.isNone &&
    (let validated :=
      validateAnalysis (analyzeCandles env.analyzeOutcome) (configOf env.user)
     !(validated.action = TradeAction.hold) &&
       (env.tradeEnv.raiseMsg.isSome ||
         (env.tradeEnv.balance.sufficient &&
           (match env.tradeEnv.price with
            | none => false
            | some p =>
                decide (0 < calculateOrderQuantity
                  env.tradeEnv.balance.available_balance p validated.leverage)))))

/-! Section: websocket_client.py — the stream ingestor's reconnect protocol -/

/-- Value of `max_reconnect_attempts` (websocket_client.py:33). -/
def maxReconnectAttempts : Nat := 10

/-- Value of `reconnect_delay` in seconds (websocket_client.py:34). -/
def reconnectDelay : ℚ := 5

/-- The reconnect-relevant state of `BybitWebSocketClient`:
the attempt counter, the last value written to the `websocket_status`
status key, and whether the max-attempts-exceeded error has been
reported (the `log_error` in `_schedule_reconnect`). -/
structure WsState where
  reconnect_attempts : Nat
  status : String
  maxExceededReported : Bool
  deriving DecidableEq, Repr

/-- Fresh client state (constructor, websocket_client.py:31-37). -/
def wsInit : WsState :=
  { reconnect_attempts := 0, status := "disconnected", maxExceededReported := false }

/-- Embeds `BybitWebSocketClient._schedule_reconnect` (websocket_client.py:202-219).
At or above the maximum the exceeded error is reported and no connect
attempt follows (`none`); otherwise the counter is incremented and the
client waits `reconnect_delay * 2^(attempts-1)` seconds (`some delay`)
before calling `connect()` again. -/
def scheduleReconnect (s : WsState) : WsState × Option ℚ :=
  if maxReconnectAttempts ≤ s.reconnect_attempts then
    ({ s with maxExceededReported := true }, none)
  else
    let attempts := s.reconnect_attempts + 1
    ({ s with reconnect_attempts := attempts },
      some (reconnectDelay * 2 ^ (attempts - 1)))

/-- A socket error or close event: the handler first writes the failure
status (`error` or `disconnected`, websocket_client.py:80/106/110), then
calls `_schedule_reconnect`. -/
def wsOnFailure (failStatus : String) (s : WsState) : WsState × Option ℚ :=
  scheduleReconnect { s with status := failStatus }

/-- A successful `connect()`: the attempt counter is reset to zero
(websocket_client.py:62) and the status becomes `connected`. -/
def wsOnConnectSuccess (s : WsState) : WsState :=
  { s with reconnect_attempts := 0, status := "connected" }

/-- Run a streak of `n` consecutive connection failures: each failure (with
status `error`) schedules a reconnect; once `_schedule_reconnect` gives up
there is no further connection, hence no further failure event. Returns
the final state and the list of back-off waits, one per connect attempt
actually made. -/
def runFailures : Nat → WsState → WsState × List ℚ
  | 0, s => (s, [])
  | n + 1, s =>
      match wsOnFailure "error" s with
      | (s1, none) => (s1, [])
      | (s1, some d) =>
          let (s2, ds) := runFailures n s1
          (s2, d :: ds)

/-! Section: bybit_api.py — the historical backfill client -/

/-- The model of the exchange's kline source used by `get_kline_data`
(bybit_api.py:31-102): `src` is the full history, oldest→newest with
strictly increasing timestamps. A call with `limit` and `end` returns the
newest `min(limit, 1000)` candles with timestamp ≤ `end`, sorted
oldest→newest (the method sorts ascending before returning). -/
def fetchKline (src : List CandleData) (limit : Nat) (endTime : Int) :
    List CandleData :=
  let lim := min limit 1000
  let avail := src.takeWhile (fun c => decide (c.timestamp ≤ endTime))
  avail.drop (avail.length - lim)

/-- The `while` loop of `get_bulk_kline_data` (bybit_api.py:120-154),
with an explicit fuel bound on the number of iterations (each iteration
of the claim's scenario collects at least one new candle, so
`totalCount` fuel is enough there). `acc` is `all_candles`
(oldest→newest), `endTime` is the rolling cursor. -/
def bulkLoop (src : List CandleData) (totalCount : Nat) :
    Nat → List CandleData → Int → List CandleData
  | 0, acc, _ => acc
  | fuel + 1, acc, endTime =>
      if acc.length < totalCount then
        let batchSize := min 1000 (totalCount - acc.length)
        match fetchKline src batchSize endTime with
        | [] => acc
        | c0 :: rest =>
            let newCandles := (c0 :: rest).filter
              (fun c => !(acc.any (fun e => e.timestamp == c.timestamp)))
            bulkLoop src totalCount fuel (newCandles ++ acc) (c0.timestamp - 1)
      else acc

/-- Embeds `BybitApiClient.get_bulk_kline_data` (bybit_api.py:102-177): run the
paginated loop from `now`, sort ascending by timestamp, truncate to the
newest `totalCount` entries. -/
def getBulkKlineData (src : List CandleData) (now : Int) (totalCount : Nat) :
    List CandleData :=
  let allCandles := bulkLoop src totalCount totalCount [] now
  let sorted := allCandles.insertionSort (fun a b => a.timestamp ≤ b.timestamp)
  if totalCount < sorted.length then sorted.drop (sorted.length - totalCount)
  else sorted

/-! Section: Derived per-tick aggregates and concrete sample inputs -/

/-- Number of users counted as successful on one tick. -/
def tickSuccessCount (users : List UserTickEnv) : Nat :=
  users.countP (fun env => (userTickOutcome env).1)

/-- Number of users counted as failed trades on one tick. -/
def tickFailCount (users : List UserTickEnv) : Nat :=
  users.countP (fun env => !(userTickOutcome env).1)

/-- All `trade_logs` rows appended on one tick, in processing order. -/
def tickEntries (users : List UserTickEnv) : List TradeLogRow :=
  (users.map (fun env => (userTickOutcome env).2)).flatten

/-- A concrete candle with a given timestamp (OHLCV strings fixed). -/
def tsCandle (t : Int) : CandleData :=
  { timestamp := t, openPrice := "1", high := "1", low := "1", close := "1", volume := "1" }

/-- A concrete active user. -/
def sampleUser : ActiveUser :=
  { id := 1
    email := "user@example.com"
    api_key := "key"
    api_secret := "secret"
    risk_level := "medium"
    max_leverage := 10
    preferred_symbol := "BTCUSDT"
    preferred_interval := "1" }

/-- A concrete per-user tick input whose GPT call fails, so the validated
decision is the `hold` fallback: the candle window is non-empty and the
exchange side would be perfectly able to trade. -/
def holdTickEnv : UserTickEnv :=
  { user := sampleUser
    candles := [tsCandle 1700000000000]
    analyzeOutcome := AnalyzeOutcome.apiError "timeout"
    tradeEnv := { balance := { sufficient := true, available_balance := 100 }, price := some 50000 } }

/-- A decrypt function that always fails (e.g. wrong encryption key). -/
def decAlwaysFail : String → Option String := fun _ => none

/-- A concrete database user row. -/
def sampleDbRow : DbUserRow :=
  { id := 7
    email := "other@example.com"
    bybit_api_key := "enc-key"
    bybit_api_secret := "enc-secret"
    risk_level := "low"
    max_leverage := 5 }

/-- A concrete environment for each active user of a tick. -/
def sampleEnvOf : ActiveUser → UserTickEnv := fun au =>
  { user := au
    candles := []
    analyzeOutcome := AnalyzeOutcome.apiError "down"
    tradeEnv := { balance := { sufficient := false, available_balance := 0 }, price := none } }

/-! Section: Theorems -/

/-! Section: Candle store (claim C6) -/

theorem saveCandleData_length_le (series : List CandleData) (c : CandleData) :
    candleCount (saveCandleData series c) ≤ candleCapacity := by
  simp [candleCount, saveCandleData]

theorem applyAppends_length_le (ops : List CandleData) :
    candleCount (applyAppends ops) ≤ candleCapacity := by
  induction ops using List.reverseRecOn with
  | nil => simp [applyAppends, candleCount]
  | append_singleton l c _ =>
      have h : applyAppends (l ++ [c]) = saveCandleData (applyAppends l) c := by
        simp [applyAppends]
      rw [h]
      exact saveCandleData_length_le _ _

/-- C6. For every finite sequence of appends to one (symbol, interval)
series, the length reported by `count()` stays ≤ 5000 after every
operation, and immediately after any append `read(symbol, interval, 1)`
returns exactly the just-appended candle as its single newest-first
element. -/
theorem candle_store_bounded_and_newest_first :
    (∀ (ops : List CandleData) (k : Nat),
        candleCount (applyAppends (ops.take k)) ≤ candleCapacity) ∧
    (∀ (series : List CandleData) (c : CandleData),
        getCandleData (saveCandleData series c) 1 = [c]) := by
  refine ⟨fun ops k => applyAppends_length_le (ops.take k), fun series c => ?_⟩
  simp [getCandleData, saveCandleData, candleCapacity, List.take_take]

/-! Section: Order quantity (claim C8) -/

/-- C8. `_calculate_order_quantity` with balance 100, price 50000 and
leverage 5 yields exactly 0.0016 (an integer multiple of the minimum
increment 0.000001); a price of 0 or a balance of 0 yields 0 for every
leverage; and `execute_trade` treats a non-positive quantity as
do-not-trade: it returns a failure without placing an order and without
touching the trade ledger. -/
theorem order_quantity_spec :
    calculateOrderQuantity 100 50000 5 = 16 / 10000 ∧
    (∀ (b : ℚ) (lev : Int), calculateOrderQuantity b 0 lev = 0) ∧
    (∀ (p : ℚ) (lev : Int), calculateOrderQuantity 0 p lev = 0) ∧
    (∀ (env : TradeEnv) (userId : Int) (analysis : GPTAnalysis)
        (symbol : String) (p : ℚ),
      env.raiseMsg = none →
      env.balance.sufficient = true →
      env.price = some p →
      calculateOrderQuantity env.balance.available_balance p analysis.leverage ≤ 0 →
      executeTrade env userId analysis symbol =
        ({ success := false, error := some "주문 수량이 최소 단위 미만" }, [])) := by
  refine ⟨?_, ?_, ?_, ?_⟩
  · norm_num [calculateOrderQuantity, pyRound]
  · intro b lev
    simp [calculateOrderQuantity]
  · intro p lev
    by_cases hp : p = 0 <;> norm_num [calculateOrderQuantity, pyRound, hp]
  · intro env userId analysis symbol p h1 h2 h3 h4
    simp only [executeTrade, h1, h2, h3, Bool.not_true]
    rw [if_neg (by simp), if_pos h4]

/-- Witness for C8: a concrete environment with sufficient balance,
price 1 and available balance 0, where the computed quantity is 0 and
`execute_trade` refuses to trade. -/
theorem order_quantity_spec_witness :
    (({ balance := { sufficient := true, available_balance := 0 },
        price := some 1 } : TradeEnv).raiseMsg = none) ∧
    (({ balance := { sufficient := true, available_balance := 0 },
        price := some 1 } : TradeEnv).balance.sufficient = true) ∧
    (({ balance := { sufficient := true, available_balance := 0 },
        price := some 1 } : TradeEnv).price = some 1) ∧
    calculateOrderQuantity 0 1 1 ≤ 0 ∧
    executeTrade
        { balance := { sufficient := true, available_balance := 0 }, price := some 1 }
        1 { action := TradeAction.buy, confidence := 1, leverage := 1, reason := "r" }
        "BTCUSDT" =
      ({ success := false, error := some "주문 수량이 최소 단위 미만" }, []) := by
  refine ⟨rfl, rfl, rfl, by norm_num [calculateOrderQuantity, pyRound], ?_⟩
  exact order_quantity_spec.2.2.2
    { balance := { sufficient := true, available_balance := 0 }, price := some 1 }
    1 { action := TradeAction.buy, confidence := 1, leverage := 1, reason := "r" }
    "BTCUSDT" 1 rfl rfl rfl (by norm_num [calculateOrderQuantity, pyRound])

/-! Section: Decision parsing (claims C3, C5) -/

/-- C3, counterexample. The payload `"buy"` is not valid JSON, yet the
keyword fallback `_extract_from_text` returns action `buy`, not `hold`:
the claim that every invalid-JSON payload yields a `hold` decision is
false. -/
theorem invalid_json_hold_cex :
    (parseGptResponse (GptPayload.invalidJson "buy")).action = TradeAction.buy ∧
    (parseGptResponse (GptPayload.invalidJson "buy")).action ≠ TradeAction.hold := by
  exact ⟨by decide, by decide⟩

/-- C3, amended. Parsing an invalid-JSON payload never raises (the
embedding is a total function): it falls back to keyword extraction,
returning a decision with a non-empty reason whose action is `buy` when
the lowercased text contains a buy keyword, else `sell` for a sell
keyword, else `hold`; confidence is 0.5 and leverage 1. -/
theorem invalid_json_keyword_fallback (text : String) :
    parseGptResponse (GptPayload.invalidJson text) = extractFromText text ∧
    0 < (parseGptResponse (GptPayload.invalidJson text)).reason.length ∧
    (parseGptResponse (GptPayload.invalidJson text)).action =
      (if strContains (pyLower text) "buy" || strContains (pyLower text) "매수" then
        TradeAction.buy
      else if strContains (pyLower text) "sell" || strContains (pyLower text) "매도" then
        TradeAction.sell
      else TradeAction.hold) ∧
    (parseGptResponse (GptPayload.invalidJson text)).confidence = 1 / 2 ∧
    (parseGptResponse (GptPayload.invalidJson text)).leverage = 1 := by
  refine ⟨rfl, ?_, rfl, rfl, rfl⟩
  show 0 < ("텍스트 분석 결과: " ++ pyTake text 100 ++ "...").length
  rw [String.length_append, String.length_append]
  have h : 0 < ("텍스트 분석 결과: " : String).length := by decide
  omega

/-- C5. Validation clamps the decision fields: confidence 1.5 parses
to 1.0; leverage 50 is first clamped to 20 by parsing and then to the
user's `max_leverage` 10 by validation; and whenever the confidence is
below the risk-dependent threshold (low 0.8, medium 0.7, high 0.6) the
validated action is `hold` regardless of the original action, with the
threshold comparison appended to the reason. -/
theorem decision_clamps_and_threshold :
    (parseGptResponse (GptPayload.ok { confidence := some (3 / 2) })).confidence = 1 ∧
    (parseGptResponse (GptPayload.ok { leverage := some 50 })).leverage = 20 ∧
    (validateAnalysis (parseGptResponse (GptPayload.ok { leverage := some 50 }))
        { risk_level := "medium", max_leverage := 10 }).leverage = 10 ∧
    confidenceThreshold "low" = 8 / 10 ∧
    confidenceThreshold "medium" = 7 / 10 ∧
    confidenceThreshold "high" = 6 / 10 ∧
    (∀ (analysis : GPTAnalysis) (config : UserConfig),
      analysis.confidence < confidenceThreshold config.risk_level →
      (validateAnalysis analysis config).action = TradeAction.hold ∧
      (validateAnalysis analysis config).reason =
        analysis.reason ++
          thresholdRemark analysis.confidence
            (confidenceThreshold config.risk_level)) := by
  refine ⟨?_, ?_, ?_, by simp [confidenceThreshold], by simp [confidenceThreshold],
    by simp [confidenceThreshold], ?_⟩
  · norm_num [parseGptResponse]
  · norm_num [parseGptResponse, pyInt, pyLower, min_def, max_def]
  · have hth : confidenceThreshold ("medium" : String) = 7 / 10 := by
      simp [confidenceThreshold]
    norm_num [parseGptResponse, validateAnalysis, hth, pyInt, pyLower, min_def, max_def]
  · intro analysis config h
    by_cases hl : config.max_leverage < analysis.leverage <;>
      simp [validateAnalysis, hl, h]

/-- Witness for C5: a confidence of 0.5 is below the `low` threshold 0.8,
so a `buy` decision is forced to `hold` with the annotated reason. -/
theorem decision_clamps_and_threshold_witness :
    ({ action := TradeAction.buy, confidence := 1 / 2, leverage := 5,
       reason := "momentum" } : GPTAnalysis).confidence <
      confidenceThreshold ({ risk_level := "low", max_leverage := 10 } : UserConfig).risk_level ∧
    ((validateAnalysis
        { action := TradeAction.buy, confidence := 1 / 2, leverage := 5, reason := "momentum" }
        { risk_level := "low", max_leverage := 10 }).action = TradeAction.hold ∧
      (validateAnalysis
          { action := TradeAction.buy, confidence := 1 / 2, leverage := 5, reason := "momentum" }
          { risk_level := "low", max_leverage := 10 }).reason =
        "momentum" ++
          thresholdRemark (1 / 2)
            (confidenceThreshold ({ risk_level := "low", max_leverage := 10 } : UserConfig).risk_level)) := by
  refine ⟨by norm_num [confidenceThreshold], ?_⟩
  exact decision_clamps_and_threshold.2.2.2.2.2.2
    { action := TradeAction.buy, confidence := 1 / 2, leverage := 5, reason := "momentum" }
    { risk_level := "low", max_leverage := 10 } (by norm_num [confidenceThreshold])

/-! Section: Order placement (claim C2) -/

/-- C2. Placing an order in non-production mode does **not** return a
simulated fill: building the `order_data` dict raises `NameError` (its
`orderLinkId` f-string reads the unbound name `user_id`) before the
testnet/development branch is reached, so every `_place_order` call — in
every mode — returns `success = false` with the `NameError` message and
`simulated` unset. The first conjunct evaluates the concrete non-production
call of the claim. -/
theorem testnet_order_is_never_simulated :
    placeOrder true false 1700000000 (ExchangeReply.errOrder "") "BTCUSDT"
        TradeAction.buy (16 / 10000) 50000 =
      { success := false, error := some "NameError: name user_id is not defined" } ∧
    (∀ (testnet devEnv : Bool) (nowS : Int) (exch : ExchangeReply)
        (symbol : String) (action : TradeAction) (qty price : ℚ),
      (placeOrder testnet devEnv nowS exch symbol action qty price).success = false ∧
      (placeOrder testnet devEnv nowS exch symbol action qty price).simulated = false ∧
      (placeOrder testnet devEnv nowS exch symbol action qty price).error =
        some "NameError: name user_id is not defined") := by
  exact ⟨rfl, fun _ _ _ _ _ _ _ _ => ⟨rfl, rfl, rfl⟩⟩

/-! Section: Scheduler ledger and failure isolation (claims C1, C4) -/

/-- The per-user loop fold, expressed with the per-tick aggregates. -/
theorem foldl_cycleStep (users : List UserTickEnv)
    (s f : Nat) (es : List TradeLogRow) :
    users.foldl cycleStep (s, f, es) =
      (s + tickSuccessCount users, f + tickFailCount users, es ++ tickEntries users) := by
  induction users generalizing s f es with
  | nil => simp [tickSuccessCount, tickFailCount, tickEntries]
  | cons u t ih =>
      rw [List.foldl_cons, ih]
      rcases hu : userTickOutcome u with ⟨ok, rows⟩
      rcases ok with _ | _ <;>
        simp [cycleStep, hu, tickSuccessCount, tickFailCount, tickEntries,
          List.countP_cons] <;>
        omega

/-- C1, counterexample. A tick over one user whose decision is `hold`
(the GPT call failed, so the validated decision is the hold fallback)
processes the user and counts it as successful, but appends **zero**
`trade_logs` rows — not the exactly one row the claim requires. -/
theorem ledger_entry_per_user_cex :
    (executeTradingCycle [holdTickEnv]).published =
      some { users_processed := 1, successful_trades := 1, failed_trades := 0,
             last_run_recorded := true } ∧
    (executeTradingCycle [holdTickEnv]).entries.length = 0 ∧
    (executeTradingCycle [holdTickEnv]).entries.length ≠ 1 := by
  have houtcome : userTickOutcome holdTickEnv = (true, []) := by
    have hth : confidenceThreshold ("medium" : String) = 7 / 10 := by
      simp [confidenceThreshold]
    simp [userTickOutcome, holdTickEnv, processUserTrading, analyzeCandles,
      sampleUser, configOf, validateAnalysis, hth]
  refine ⟨?_, ?_, ?_⟩ <;>
    simp [executeTradingCycle, List.foldl_cons, cycleStep, houtcome]

/-- C1, amended. Each processed user appends **at most** one ledger
row per tick: exactly one when the validated decision is not `hold` and
`execute_trade` reaches the order placement (sufficient balance, known
price, positive quantity) or raises; and zero on the hold, empty-window,
per-user-exception and early-failure paths. The tick's ledger is the
concatenation of the per-user rows. -/
theorem ledger_entries_characterization :
    (∀ env : UserTickEnv,
        ((userTickOutcome env).2).length = if ledgerAppended env then 1 else 0) ∧
    (∀ users : List UserTickEnv,
        (executeTradingCycle users).entries = tickEntries users) := by
  constructor
  · intro env
    rcases env with ⟨user, loopRaise, candles, procRaise, analyzeOutcome, tradeEnv⟩
    rcases loopRaise with _ | msg
    · rcases hc : candles.isEmpty with _ | _
      · rcases procRaise with _ | pmsg
        · rcases tradeEnv with ⟨raiseMsg, balance, price, testnet, devEnv, nowS, exch⟩
          rcases raiseMsg with _ | rmsg
          · by_cases hhold :
              (validateAnalysis (analyzeCandles analyzeOutcome)
                (configOf user)).action = TradeAction.hold
            · simp [userTickOutcome, hc, processUserTrading, ledgerAppended, hhold]
            · rcases hsuf : balance.sufficient with _ | _
              · simp [userTickOutcome, hc, processUserTrading, ledgerAppended, hhold,
                  executeTrade, hsuf]
              · rcases price with _ | p
                · simp [userTickOutcome, hc, processUserTrading, ledgerAppended, hhold,
                    executeTrade, hsuf]
                · by_cases hq :
                    calculateOrderQuantity balance.available_balance p
                      (validateAnalysis (analyzeCandles analyzeOutcome)
                        (configOf user)).leverage ≤ 0
                  · simp [userTickOutcome, hc, processUserTrading, ledgerAppended, hhold,
                      executeTrade, hsuf, hq, not_lt.mpr hq]
                  · simp [userTickOutcome, hc, processUserTrading, ledgerAppended, hhold,
                      executeTrade, hsuf, hq, lt_of_not_le hq]
          · by_cases hhold :
              (validateAnalysis (analyzeCandles analyzeOutcome)
                (configOf user)).action = TradeAction.hold <;>
              simp [userTickOutcome, hc, processUserTrading, ledgerAppended,
                executeTrade, hhold]
        · simp [userTickOutcome, hc, processUserTrading, ledgerAppended]
      · simp [userTickOutcome, hc, ledgerAppended]
    · simp [userTickOutcome, ledgerAppended]
  · intro users
    cases users with
    | nil => simp [executeTradingCycle, tickEntries]
    | cons u t =>
        simp [executeTradingCycle, foldl_cycleStep (u :: t) 0 0 []]

/-- C4. An exception raised while processing one user is caught by the
per-user loop: it is counted as exactly one failed trade, every user
before and after it is still processed with its own outcome and ledger
rows, the tick completes, and the aggregate counters and last-run
timestamp are published for all the users of the tick. -/
theorem user_exception_is_isolated (pre post : List UserTickEnv)
    (u : UserTickEnv) (msg : String) :
    executeTradingCycle (pre ++ { u with loopRaise := some msg } :: post) =
      { successful_trades := tickSuccessCount pre + tickSuccessCount post
        failed_trades := tickFailCount pre + 1 + tickFailCount post
        entries := tickEntries pre ++ tickEntries post
        published := some
          { users_processed := pre.length + 1 + post.length
            successful_trades := tickSuccessCount pre + tickSuccessCount post
            failed_trades := tickFailCount pre + 1 + tickFailCount post
            last_run_recorded := true } } := by
  have hraise : userTickOutcome { u with loopRaise := some msg } = (false, []) := rfl
  have hne : (pre ++ { u with loopRaise := some msg } :: post).isEmpty = false := by
    simp [List.isEmpty_eq_true]
  simp only [executeTradingCycle, hne, Bool.false_eq_true, if_false,
    foldl_cycleStep, Nat.zero_add, List.nil_append]
  have hS : tickSuccessCount (pre ++ { u with loopRaise := some msg } :: post) =
      tickSuccessCount pre + tickSuccessCount post := by
    simp [tickSuccessCount, List.countP_append, List.countP_cons, hraise]
  have hF : tickFailCount (pre ++ { u with loopRaise := some msg } :: post) =
      tickFailCount pre + 1 + tickFailCount post := by
    simp [tickFailCount, List.countP_append, List.countP_cons, hraise]
    omega
  have hE : tickEntries (pre ++ { u with loopRaise := some msg } :: post) =
      tickEntries pre ++ tickEntries post := by
    simp [tickEntries, hraise]
  simp [hS, hF, hE]
  omega

/-! Section: Decrypt-failure exclusion (claim C10) -/

/-- C10. A user row whose stored API key or secret fails to decrypt is
silently excluded before processing: the active-user list is exactly the
one built from the other rows, and the whole tick — every counter, the
published status and the ledger — is identical to a tick that never saw
the row. -/
theorem decrypt_failure_excludes_user (dec : String → Option String)
    (pre post : List DbUserRow) (r : DbUserRow)
    (envOf : ActiveUser → UserTickEnv)
    (h : dec r.bybit_api_key = none ∨ dec r.bybit_api_secret = none) :
    getActiveUsers dec (pre ++ r :: post) =
      getActiveUsers dec pre ++ getActiveUsers dec post ∧
    fullTick dec (pre ++ r :: post) envOf = fullTick dec (pre ++ post) envOf := by
  have hr : buildActiveUser dec r = none := by
    unfold buildActiveUser
    rcases h with h | h
    · rw [h]
    · rw [h]
      cases dec r.bybit_api_key <;> rfl
  have hsplit : getActiveUsers dec (pre ++ r :: post) =
      getActiveUsers dec pre ++ getActiveUsers dec post := by
    simp only [getActiveUsers, List.filterMap_append, List.filterMap_cons, hr]
  have hpp : getActiveUsers dec (pre ++ post) =
      getActiveUsers dec pre ++ getActiveUsers dec post := by
    simp only [getActiveUsers, List.filterMap_append]
  refine ⟨hsplit, ?_⟩
  rw [fullTick, fullTick, hsplit, hpp]

/-- Witness for C10: with a decrypt that always fails, a tick over the
single sample row equals a tick over no rows. -/
theorem decrypt_failure_excludes_user_witness :
    (decAlwaysFail sampleDbRow.bybit_api_key = none ∨
      decAlwaysFail sampleDbRow.bybit_api_secret = none) ∧
    (getActiveUsers decAlwaysFail ([] ++ sampleDbRow :: []) =
      getActiveUsers decAlwaysFail [] ++ getActiveUsers decAlwaysFail [] ∧
    fullTick decAlwaysFail ([] ++ sampleDbRow :: []) sampleEnvOf =
      fullTick decAlwaysFail ([] ++ []) sampleEnvOf) := by
  refine ⟨Or.inl rfl, ?_⟩
  exact decrypt_failure_excludes_user decAlwaysFail [] [] sampleDbRow sampleEnvOf
    (Or.inl rfl)

/-! Section: Stream-ingestor reconnect protocol (claim C9) -/

/-- Full characterisation of a streak of `n` connection failures starting
from any state with a legal attempt counter. -/
theorem runFailures_spec (n : Nat) (s : WsState)
    (ha : s.reconnect_attempts ≤ maxReconnectAttempts) :
    (runFailures n s).2 =
      (List.range (min n (maxReconnectAttempts - s.reconnect_attempts))).map
        (fun k => reconnectDelay * 2 ^ (s.reconnect_attempts + k)) ∧
    (runFailures n s).1.reconnect_attempts =
      min (s.reconnect_attempts + n) maxReconnectAttempts ∧
    (runFailures n s).1.maxExceededReported =
      (s.maxExceededReported ||
        decide (maxReconnectAttempts < s.reconnect_attempts + n)) ∧
    (runFailures n s).1.status = (if n = 0 then s.status else "error") := by
  induction n generalizing s with
  | zero =>
      refine ⟨by simp [runFailures], ?_, ?_, by simp [runFailures]⟩
      · simp [runFailures, Nat.min_eq_left ha]
      · simp [runFailures]
        intro hcontra
        exact absurd hcontra (by omega)
  | succ n ih =>
      by_cases hcap : maxReconnectAttempts ≤ s.reconnect_attempts
      · have heq : s.reconnect_attempts = maxReconnectAttempts := le_antisymm ha hcap
        have hlt : maxReconnectAttempts < s.reconnect_attempts + (n + 1) := by omega
        simp [runFailures, wsOnFailure, scheduleReconnect, hcap, heq, hlt]
      · have hlt : s.reconnect_attempts < maxReconnectAttempts := lt_of_not_le hcap
        have hstep :
            wsOnFailure "error" s =
              (({ s with
                  status := "error"
                  reconnect_attempts := s.reconnect_attempts + 1 } : WsState),
                some (reconnectDelay * 2 ^ s.reconnect_attempts)) := by
          simp [wsOnFailure, scheduleReconnect, not_le.mpr hlt]
        have ih1 := ih
          { s with
            status := "error"
            reconnect_attempts := s.reconnect_attempts + 1 } (by simpa using hlt)
        have hrw : runFailures (n + 1) s =
            (let p := runFailures n
              { s with
                status := "error"
                reconnect_attempts := s.reconnect_attempts + 1 }
             (p.1, (reconnectDelay * 2 ^ s.reconnect_attempts) :: p.2)) := by
          rw [runFailures, hstep]
        rw [hrw]
        dsimp only
        obtain ⟨hw, hattempts, hrep, hstatus⟩ := ih1
        refine ⟨?_, ?_, ?_, ?_⟩
        · simp only [hw]
          have hsub : maxReconnectAttempts - s.reconnect_attempts =
              (maxReconnectAttempts - (s.reconnect_attempts + 1)) + 1 := by omega
          rw [hsub, Nat.succ_min_succ, List.range_succ_eq_map]
          simp only [List.map_cons, List.map_map]
          refine congrArg₂ _ (by simp) ?_
          refine List.map_congr_left ?_
          intro k _
          simp only [Function.comp]
          have : s.reconnect_attempts + 1 + k = s.reconnect_attempts + Nat.succ k := by
            omega
          rw [this]
        · simp only [hattempts]
          congr 1
          omega
        · simp only [hrep]
          have harith : s.reconnect_attempts + 1 + n = s.reconnect_attempts + (n + 1) := by
            omega
          simp [harith]
        · simp only [hstatus]
          cases n <;> simp

/-- C9. Starting from a fresh client: the k-th reconnect attempt
(k = 1, 2, …) waits `5 * 2^(k-1)` seconds; at most 10 connection attempts
are ever made — once the counter reaches the maximum of 10, a further
failure produces no connection attempt, reports the exceeded maximum and
leaves the failure status on the status surface; and a successful
connection resets the attempt counter to zero. -/
theorem reconnect_backoff_capped :
    (∀ n : Nat,
      (runFailures n wsInit).2 =
        (List.range (min n maxReconnectAttempts)).map
          (fun k => reconnectDelay * 2 ^ k) ∧
      (runFailures n wsInit).1.reconnect_attempts = min n maxReconnectAttempts) ∧
    (∀ n : Nat, maxReconnectAttempts < n →
      (runFailures n wsInit).1.maxExceededReported = true ∧
      (runFailures n wsInit).1.status = "error") ∧
    (∀ s : WsState, (wsOnConnectSuccess s).reconnect_attempts = 0) := by
  refine ⟨fun n => ?_, fun n hn => ?_, fun s => rfl⟩
  · obtain ⟨hw, hattempts, -, -⟩ := runFailures_spec n wsInit (by simp [wsInit])
    constructor
    · rw [hw]
      simp [wsInit]
    · rw [hattempts]
      simp [wsInit]
  · obtain ⟨-, -, hrep, hstatus⟩ := runFailures_spec n wsInit (by simp [wsInit])
    constructor
    · rw [hrep]
      simp [wsInit]
      omega
    · rw [hstatus]
      have : n ≠ 0 := by
        intro h
        rw [h] at hn
        exact absurd hn (by simp [maxReconnectAttempts])
      simp [this]

/-- Witness for C9: eleven consecutive failures from a fresh client leave
the exceeded-maximum report set and the failure status recorded. -/
theorem reconnect_backoff_capped_witness :
    maxReconnectAttempts < 11 ∧
    ((runFailures 11 wsInit).1.maxExceededReported = true ∧
      (runFailures 11 wsInit).1.status = "error") := by
  exact ⟨by norm_num [maxReconnectAttempts],
    reconnect_backoff_capped.2.1 11 (by norm_num [maxReconnectAttempts])⟩

/-! Section: Bulk backfill (claim C7) -/

theorem takeWhile_ts_all (src : List CandleData) (e : Int)
    (h : ∀ c ∈ src, c.timestamp ≤ e) :
    src.takeWhile (fun c => decide (c.timestamp ≤ e)) = src := by
  induction src with
  | nil => rfl
  | cons c t ih =>
      rw [List.takeWhile_cons, if_pos (by simpa using h c (by simp))]
      rw [ih (fun x hx => h x (by simp [hx]))]

theorem takeWhile_ts_take (src : List CandleData)
    (hs : src.Pairwise (fun a b => a.timestamp < b.timestamp))
    (j : Nat) (hj : j < src.length) :
    src.takeWhile
        (fun c => decide (c.timestamp ≤ (src.get ⟨j, hj⟩).timestamp - 1)) =
      src.take j := by
  induction src generalizing j with
  | nil => simp at hj
  | cons c t ih =>
      rcases List.pairwise_cons.mp hs with ⟨hc, ht⟩
      cases j with
      | zero =>
          rw [List.takeWhile_cons, if_neg (by simp)]
          rfl
      | succ j =>
          have hjt : j < t.length := by simpa using hj
          have hget : ((c :: t).get ⟨j + 1, hj⟩) = t.get ⟨j, hjt⟩ := rfl
          rw [hget, List.takeWhile_cons,
            if_pos (by
              have hlt := hc (t.get ⟨j, hjt⟩) (List.get_mem t j hjt)
              simp only [List.get_eq_getElem] at hlt
              simp only [List.get_eq_getElem, decide_eq_true_eq]
              omega)]
          rw [ih ht j hjt]
          rfl

theorem pairwise_take_drop_lt (src : List CandleData)
    (hs : src.Pairwise (fun a b => a.timestamp < b.timestamp)) (k : Nat) :
    ∀ a ∈ src.take k, ∀ b ∈ src.drop k, a.timestamp < b.timestamp := by
  have h := hs
  rw [← List.take_append_drop k src] at h
  exact (List.pairwise_append.mp h).2.2

/-- Invariant of the backfill loop: if the accumulated candles are exactly
the newest `m` of the source and the cursor cuts the source exactly below
them, the loop ends with exactly the newest `totalCount` candles. -/
theorem bulkLoop_eq_drop (src : List CandleData)
    (hs : src.Pairwise (fun a b => a.timestamp < b.timestamp))
    (T : Nat) (hT : T ≤ src.length) :
    ∀ (fuel m : Nat) (e : Int), m ≤ T → T ≤ fuel + m →
      src.takeWhile (fun c => decide (c.timestamp ≤ e)) =
        src.take (src.length - m) →
      bulkLoop src T fuel (src.drop (src.length - m)) e =
        src.drop (src.length - T) := by
  intro fuel
  induction fuel with
  | zero =>
      intro m e hm hfuel _
      have : m = T := le_antisymm hm (by omega)
      rw [this, bulkLoop]
  | succ fuel ih =>
      intro m e hm hfuel hcursor
      have hmn : m ≤ src.length := le_trans hm hT
      have hlen : (src.drop (src.length - m)).length = m := by
        rw [List.length_drop, Nat.sub_sub_self hmn]
      by_cases hmT : m < T
      · -- the loop body runs: one batch of size b is fetched
        set n := src.length with hn
        set b := min 1000 (T - m) with hb
        have hb1 : 1 ≤ b := by
          rw [hb]
          omega
        have hbTm : b ≤ T - m := min_le_right 1000 (T - m)
        have hbnm : b ≤ n - m := by omega
        set j := n - m - b with hj
        have hjn : j < n := by omega
        -- the fetched batch is the slice [j, j + b) of the source
        have havail_len : (src.take (n - m)).length = n - m := by
          rw [List.length_take]
          omega
        have hbatch0 : fetchKline src b e = (src.take (n - m)).drop j := by
          rw [fetchKline]
          have hminb : min b 1000 = b := by
            rw [hb]
            omega
          rw [hcursor]
          rw [hminb, havail_len]
        have hbatch : fetchKline src b e = (src.drop j).take b := by
          rw [hbatch0, List.drop_take]
          have : n - m - j = b := by omega
          rw [this]
        -- the batch starts with the source's j-th candle
        have hdropj : src.drop j = src.get ⟨j, hjn⟩ :: src.drop (j + 1) :=
          List.drop_eq_getElem_cons hjn
        obtain ⟨b1, hb1'⟩ : ∃ b1, b = b1 + 1 := ⟨b - 1, by omega⟩
        have hbatch_cons : fetchKline src b e =
            src.get ⟨j, hjn⟩ :: (src.drop (j + 1)).take b1 := by
          rw [hbatch, hdropj, hb1', List.take_succ_cons]
        -- no timestamp of the batch is already accumulated
        have hnodup : ∀ c ∈ fetchKline src b e,
            ((src.drop (n - m)).any (fun x => x.timestamp == c.timestamp)) = false := by
          intro c hc
          have hcmem : c ∈ src.take (n - m) := by
            rw [hbatch0] at hc
            exact List.drop_subset _ _ hc
          rw [List.any_eq_false]
          intro x hx
          have hlt := pairwise_take_drop_lt src hs (n - m) c hcmem x hx
          simp only [beq_iff_eq]
          intro hxe
          rw [hxe] at hlt
          exact lt_irrefl _ hlt
        have hfilter : (fetchKline src b e).filter
            (fun c => !((src.drop (n - m)).any (fun x => x.timestamp == c.timestamp))) =
            fetchKline src b e := by
          rw [List.filter_eq_self]
          intro c hc
          rw [hnodup c hc]
          rfl
        -- the new accumulator is the newest m + b candles
        have happend : fetchKline src b e ++ src.drop (n - m) = src.drop j := by
          have hjnm : j ≤ n - m := by omega
          rw [hbatch0]
          have := List.drop_take_append_drop src j (n - m - j)
          have hcollapse : j + (n - m - j) = n - m := by omega
          rw [hcollapse] at this
          calc (src.take (n - m)).drop j ++ src.drop (n - m)
              = (src.drop j).take (n - m - j) ++ src.drop (n - m) := by
                rw [List.drop_take]
            _ = src.drop j := this
        -- the new cursor cuts the source exactly below the new accumulator
        have hcursor2 : src.takeWhile
            (fun c => decide (c.timestamp ≤ (src.get ⟨j, hjn⟩).timestamp - 1)) =
            src.take (n - (m + b)) := by
          rw [takeWhile_ts_take src hs j hjn]
          have : n - (m + b) = j := by omega
          rw [this]
        -- unfold one loop iteration and close with the induction hypothesis
        rw [bulkLoop, hlen]
        rw [if_pos hmT]
        dsimp only
        rw [show (1000 ⊓ (T - m)) = b from rfl]
        rw [hbatch_cons]
        dsimp only
        have hback : src.get ⟨j, hjn⟩ :: (src.drop (j + 1)).take b1 =
            fetchKline src b e := hbatch_cons.symm
        rw [hback, hfilter, happend]
        have hdropj2 : src.drop j = src.drop (n - (m + b)) := by
          have hjeq : n - (m + b) = j := by omega
          rw [hjeq]
        rw [hdropj2]
        exact ih (m + b) _ (by omega) (by omega) hcursor2
      · -- the accumulator already holds totalCount candles
        have : m = T := by omega
        rw [bulkLoop, if_neg (by rw [hlen]; omega), this]

/-- C7. For every target depth `T` and every source with at least `T`
candles (strictly increasing timestamps, all no newer than the start
cursor), the bulk backfill returns exactly the newest `T` candles of the
source, sorted oldest→newest — hence exactly `T` candles with strictly
increasing timestamps and no duplicates. -/
theorem bulk_backfill_exact (src : List CandleData) (now : Int) (T : Nat)
    (hs : src.Pairwise (fun a b => a.timestamp < b.timestamp))
    (hnow : ∀ c ∈ src, c.timestamp ≤ now)
    (hT : T ≤ src.length) :
    getBulkKlineData src now T = src.drop (src.length - T) ∧
    (getBulkKlineData src now T).length = T ∧
    (getBulkKlineData src now T).Pairwise
      (fun a b => a.timestamp < b.timestamp) := by
  have hloop : bulkLoop src T T [] now = src.drop (src.length - T) := by
    have h0 : ([] : List CandleData) = src.drop (src.length - 0) := by
      simp
    rw [h0]
    exact bulkLoop_eq_drop src hs T hT T 0 now (Nat.zero_le T)
      (by omega)
      (by rw [Nat.sub_zero, List.take_length]; exact takeWhile_ts_all src now hnow)
  have hsorted_lt : (src.drop (src.length - T)).Pairwise
      (fun a b => a.timestamp < b.timestamp) :=
    hs.sublist (List.drop_sublist _ _)
  have hsorted_le : (src.drop (src.length - T)).Sorted
      (fun a b => a.timestamp ≤ b.timestamp) :=
    hsorted_lt.imp (fun h => le_of_lt h)
  have hlen : (src.drop (src.length - T)).length = T := by
    rw [List.length_drop, Nat.sub_sub_self hT]
  have hres : getBulkKlineData src now T = src.drop (src.length - T) := by
    rw [getBulkKlineData, hloop, hsorted_le.insertionSort_eq, hlen,
      if_neg (lt_irrefl T)]
  exact ⟨hres, by rw [hres, hlen], by rw [hres]; exact hsorted_lt⟩

/-- Witness for C7: a three-candle source with timestamps 1 < 2 < 3, all
at most the start cursor 10, backfilled to depth 2, yields the newest two
candles in ascending order. -/
theorem bulk_backfill_exact_witness :
    ([tsCandle 1, tsCandle 2, tsCandle 3].Pairwise
        (fun a b => a.timestamp < b.timestamp)) ∧
    (∀ c ∈ [tsCandle 1, tsCandle 2, tsCandle 3], c.timestamp ≤ 10) ∧
    2 ≤ [tsCandle 1, tsCandle 2, tsCandle 3].length ∧
    (getBulkKlineData [tsCandle 1, tsCandle 2, tsCandle 3] 10 2 =
        [tsCandle 1, tsCandle 2, tsCandle 3].drop
          ([tsCandle 1, tsCandle 2, tsCandle 3].length - 2) ∧
      (getBulkKlineData [tsCandle 1, tsCandle 2, tsCandle 3] 10 2).length = 2 ∧
      (getBulkKlineData [tsCandle 1, tsCandle 2, tsCandle 3] 10 2).Pairwise
        (fun a b => a.timestamp < b.timestamp)) := by
  refine ⟨?_, ?_, by simp, ?_⟩
  · simp [tsCandle]
  · simp [tsCandle]
  · exact bulk_backfill_exact [tsCandle 1, tsCandle 2, tsCandle 3] 10 2
      (by simp [tsCandle]) (by simp [tsCandle]) (by simp)

end ACTS
